import Mathlib

/-!
Verification development for the repository's two modules:
`skills/backend-standards/examples/fastapi-endpoint.py` (a CRUD user API) and
`skills/backend-design/examples/sqlalchemy-model.py` (the relational schema).

The endpoint module is embedded as pure functions over an explicit user-table
state.  Each endpoint returns both its result (an HTTP error or a value) and
the trace of repository operations it invoked, so that "the repository's
create/update operation is never invoked" is a statement about the trace.
The repository implementation itself is not part of the repository (the
source's `get_user_repository` is a placeholder raising NotImplementedError),
so repository operations are modelled from the spec where marked.
-/

namespace FastapiEndpoint

/-- A user record as stored by the repository.  Field names follow the
keyword arguments of `repo.create` in `create_user`, plus the `is_active`
flag used by the `list_users` filter.  The timestamp is modelled as a `Nat`. -/
structure StoredUser where
  id : String
  email : String
  name : String
  password_hash : String
  created_at : Nat
  is_active : Bool
deriving DecidableEq, Repr

/-- The repository's backing state: the table of users. -/
abbrev UserTable := List StoredUser

/-- ASCII lowercasing of one character (the case folding used for the
case-insensitive email comparison). -/
def lowerChar (c : Char) : Char :=
  if 65 ≤ c.toNat ∧ c.toNat ≤ 90 then Char.ofNat (c.toNat + 32) else c

/-- ASCII lowercasing of a string. -/
def lowerStr (s : String) : String := ⟨s.data.map lowerChar⟩

/-- Modelled from the spec: the repository implementation is missing from the
repository (`get_user_repository` is an unimplemented placeholder).  Section
4.2 of the spec gives `get_by_email(email) -> Option<User>` as a
case-insensitive match. -/
def get_by_email (tbl : UserTable) (email : String) : Option StoredUser :=
  tbl.find? (fun u => lowerStr u.email == lowerStr email)

/-- Modelled from the spec: `get_by_id(id) -> Option<Entity>` looks up the
entity by its identifier. -/
def get_by_id (tbl : UserTable) (uid : String) : Option StoredUser :=
  tbl.find? (fun u => u.id == uid)

/-- One call made to the repository, recorded in an endpoint's trace. -/
inductive RepoOp where
  | getByEmail (email : String)
  | create (u : StoredUser)
  | getById (id : String)
  | update (id : String) (fields : List (String × String))
  | delete (id : String)
deriving DecidableEq, Repr

/-- The `detail` dict passed to `HTTPException` (mirrors `ErrorDetail`). -/
structure ErrorDetail where
  code : String
  message : String
  field : Option String := none
deriving DecidableEq, Repr

/-- An `HTTPException`: transport status code plus structured detail. -/
structure HTTPError where
  status_code : Nat
  detail : ErrorDetail
deriving DecidableEq, Repr

/-- Request model `UserCreate` (email, name, password). -/
structure UserCreate where
  email : String
  name : String
  password : String
deriving DecidableEq, Repr

/-- Response model `UserResponse`: only `id`, `email`, `name`, `created_at`. -/
structure UserResponse where
  id : String
  email : String
  name : String
  created_at : Nat
deriving DecidableEq, Repr

/-- Serialization through `response_model=UserResponse` (`from_attributes`):
keeps exactly the four response fields of a stored user. -/
def UserResponse.of_user (u : StoredUser) : UserResponse :=
  ⟨u.id, u.email, u.name, u.created_at⟩

/-- Endpoint `POST /api/v1/users` (`create_user`): check `get_by_email`, raise
409 `EMAIL_EXISTS` when a user with the email exists, otherwise call
`repo.create` with a fresh id, the hashed password and the current time.
`hash_password` is a parameter because the source leaves it unimplemented. -/
def create_user (hash_password : String → String) (tbl : UserTable)
    (user_data : UserCreate) (newId : String) (now : Nat) :
    Except HTTPError (UserTable × StoredUser) × List RepoOp :=
  match get_by_email tbl user_data.email with
  | some _ =>
      (.error ⟨409, ⟨"EMAIL_EXISTS", "A user with this email already exists",
          some "email"⟩⟩,
        [.getByEmail user_data.email])
  | none =>
      let u : StoredUser :=
        ⟨newId, user_data.email, user_data.name,
          hash_password user_data.password, now, true⟩
      (.ok (tbl ++ [u], u), [.getByEmail user_data.email, .create u])

/-- The endpoint's HTTP-facing result: the created user serialized through
`response_model=UserResponse`. -/
def create_user_response (hash_password : String → String) (tbl : UserTable)
    (user_data : UserCreate) (newId : String) (now : Nat) :
    Except HTTPError UserResponse :=
  (create_user hash_password tbl user_data newId now).1.map
    (fun p => UserResponse.of_user p.2)

/-- The `meta` object of the paginated list response. -/
structure ListMeta where
  page : Nat
  per_page : Nat
  total_pages : Nat
  total_count : Nat
deriving DecidableEq, Repr

/-- Response model `UserListResponse`. -/
structure UserListResponse where
  data : List UserResponse
  meta : ListMeta
deriving DecidableEq, Repr

/-- The row filter induced by the optional `is_active` query parameter. -/
def activeFilter (is_active : Option Bool) : StoredUser → Bool :=
  fun u =>
    match is_active with
    | none => true
    | some b => u.is_active == b

/-- Modelled from the spec: the repository's
`list_paginated(page, per_page, filters) -> (items, total_count)` is missing
from the repository; §4.2 gives a 1-based `page` and a `total_count` that
reflects the full filtered set regardless of page size. -/
def list_paginated (tbl : UserTable) (page per_page : Nat)
    (filt : StoredUser → Bool) : List StoredUser × Nat :=
  let filtered := tbl.filter filt
  ((filtered.drop ((page - 1) * per_page)).take per_page, filtered.length)

/-- Endpoint `GET /api/v1/users` (`list_users`): delegates to `list_paginated` and
builds the meta object with `total_pages = (total + per_page - 1) / per_page`
(integer division, as in the source).  The bounds `page ≥ 1` and
`1 ≤ per_page ≤ 100` are the `Query(..., ge=1[, le=100])` validations and
appear as hypotheses of the theorems. -/
def list_users (tbl : UserTable) (page per_page : Nat)
    (is_active : Option Bool) : UserListResponse :=
  let pr := list_paginated tbl page per_page (activeFilter is_active)
  { data := pr.1.map UserResponse.of_user,
    meta :=
      { page := page, per_page := per_page,
        total_pages := (pr.2 + per_page - 1) / per_page,
        total_count := pr.2 } }

/-- The 404 error raised by `get_user`, `update_user` and `delete_user`:
code `USER_NOT_FOUND` with a message naming the requested id. -/
def not_found_error (user_id : String) : HTTPError :=
  ⟨404, ⟨"USER_NOT_FOUND", "User with ID " ++ user_id ++ " not found", none⟩⟩

/-- Endpoint `GET /api/v1/users/\x7buser_id\x7d` (`get_user`). -/
def get_user (tbl : UserTable) (user_id : String) :
    Except HTTPError UserResponse × List RepoOp :=
  match get_by_id tbl user_id with
  | none => (.error (not_found_error user_id), [.getById user_id])
  | some u => (.ok (UserResponse.of_user u), [.getById user_id])

/-- The allow-list of the partial update: `allowed_fields = {'name', 'email'}`. -/
def allowed_fields : List String := ["name", "email"]

/-- Python `set(updates.keys()) - allowed_fields`: the distinct request keys outside
the allow-list. -/
def invalid_fields (updates : List (String × String)) : List String :=
  ((updates.map Prod.fst).filter (fun k => !allowed_fields.contains k)).dedup

/-- A single quote character (for rendering the Python set literal). -/
def squote : String := String.singleton (Char.ofNat 39)

/-- The quoted elements of a rendered Python set, joined by `", "`. -/
def joinFields : List String → String
  | [] => ""
  | [s] => squote ++ s ++ squote
  | s :: rest => squote ++ s ++ squote ++ ", " ++ joinFields rest

/-- Rendering of the Python set `invalid_fields` inside the f-string
`f'Cannot update fields: \x7binvalid_fields\x7d'`. -/
def fieldSetRepr (l : List String) : String :=
  "\x7b" ++ joinFields l ++ "\x7d"

/-- The 400 error raised by `update_user` on disallowed fields. -/
def invalid_fields_error (updates : List (String × String)) : HTTPError :=
  ⟨400, ⟨"INVALID_FIELDS",
    "Cannot update fields: " ++ fieldSetRepr (invalid_fields updates), none⟩⟩

/-- Modelled from the spec: `repo.update(id, partial_fields)` is missing from
the repository; it applies the given fields to the stored entity. -/
def apply_updates (u : StoredUser) (updates : List (String × String)) :
    StoredUser :=
  updates.foldl
    (fun acc kv =>
      if kv.1 = "name" then { acc with name := kv.2 }
      else if kv.1 = "email" then { acc with email := kv.2 }
      else acc) u

/-- Modelled from the spec: the table after `repo.update(id, fields)`. -/
def repo_update (tbl : UserTable) (uid : String)
    (updates : List (String × String)) : UserTable :=
  tbl.map (fun u => if u.id = uid then apply_updates u updates else u)

/-- Endpoint `PATCH /api/v1/users/\x7buser_id\x7d` (`update_user`): existence check
first (404), then the allow-list check (400), then `repo.update`. -/
def update_user (tbl : UserTable) (user_id : String)
    (updates : List (String × String)) :
    Except HTTPError (UserTable × StoredUser) × List RepoOp :=
  match get_by_id tbl user_id with
  | none => (.error (not_found_error user_id), [.getById user_id])
  | some u =>
      if invalid_fields updates = [] then
        (.ok (repo_update tbl user_id updates, apply_updates u updates),
          [.getById user_id, .update user_id updates])
      else
        (.error (invalid_fields_error updates), [.getById user_id])

/-- Modelled from the spec: the table after `repo.delete(id)`. -/
def repo_delete (tbl : UserTable) (uid : String) : UserTable :=
  tbl.filter (fun u => u.id != uid)

/-- Endpoint `DELETE /api/v1/users/\x7buser_id\x7d` (`delete_user`): existence check
first (404), then `repo.delete`. -/
def delete_user (tbl : UserTable) (user_id : String) :
    Except HTTPError UserTable × List RepoOp :=
  match get_by_id tbl user_id with
  | none => (.error (not_found_error user_id), [.getById user_id])
  | some _ => (.ok (repo_delete tbl user_id), [.getById user_id, .delete user_id])

def demoStored : StoredUser := ⟨"1", "A@Example.com", "n", "h", 0, true⟩

/-- A table of 25 active users, for the concrete pagination scenario. -/
def demoUsers25 : UserTable := List.replicate 25 ⟨"", "", "", "", 0, true⟩

end FastapiEndpoint

namespace SqlalchemyModel

/-!
Embedding of `sqlalchemy-model.py`.  Table rows become structures; the
declared constraints (`__table_args__`, `unique=True`, foreign keys with
`ondelete`, ORM `cascade`) become predicates on table states and a delete
operation.  Monetary columns are declared as floats in the source but only
occur in sign comparisons (`total >= 0`, ...), so they are modelled as `Int`.
-/

/-- Enumeration `OrderStatus(str, Enum)`: the six order statuses, in definition order. -/
inductive OrderStatus where
  | pending
  | confirmed
  | processing
  | shipped
  | delivered
  | cancelled
deriving DecidableEq, Repr

/-- The `.value` string of each enum member. -/
def OrderStatus.value : OrderStatus → String
  | .pending => "pending"
  | .confirmed => "confirmed"
  | .processing => "processing"
  | .shipped => "shipped"
  | .delivered => "delivered"
  | .cancelled => "cancelled"

/-- Iteration order of the enum (`for s in OrderStatus`). -/
def OrderStatus.all : List OrderStatus :=
  [.pending, .confirmed, .processing, .shipped, .delivered, .cancelled]

/-- The status strings admitted by the check constraint
`ck_order_valid_status`, generated from the enum members. -/
def orderStatusValues : List String := OrderStatus.all.map OrderStatus.value

/-- A row of the `users` table. -/
structure UserRow where
  id : String
  email : String
  name : String
  password_hash : String
  is_active : Bool
  deleted_at : Option Nat
deriving DecidableEq, Repr

/-- A row of the `addresses` table. -/
structure AddressRow where
  id : String
  user_id : String
  label : String
  street : String
  city : String
  state : String
  postal_code : String
  country : String
  is_default : Bool
deriving DecidableEq, Repr

/-- A row of the `orders` table. -/
structure OrderRow where
  id : String
  user_id : String
  shipping_address_id : Option String
  status : String
  subtotal : Int
  tax : Int
  shipping : Int
  total : Int
deriving DecidableEq, Repr

/-- A row of the `order_items` table. -/
structure OrderItemRow where
  id : String
  order_id : String
  product_id : String
  quantity : Int
  unit_price : Int
  discount : Int
deriving DecidableEq, Repr

/-- The check constraints of the `orders` table (`__table_args__`):
`ck_order_valid_status` (status among the enum values) and
`ck_order_total_positive` (`total >= 0`). -/
def orderChecksOk (r : OrderRow) : Bool :=
  orderStatusValues.contains r.status && decide (0 ≤ r.total)

/-- The mutations the `orders` table admits, with the table's check
constraints enforced by the database on every inserted or updated row. -/
inductive OrdersMutation : List OrderRow → List OrderRow → Prop where
  | insert (r : OrderRow) (rs : List OrderRow) :
      orderChecksOk r = true → OrdersMutation rs (r :: rs)
  | update (rs : List OrderRow) (f : OrderRow → OrderRow) :
      (∀ r ∈ rs, orderChecksOk (f r) = true) → OrdersMutation rs (rs.map f)
  | delete (rs : List OrderRow) (p : OrderRow → Bool) :
      OrdersMutation rs (rs.filter p)

/-- The column tuple of the unique constraint `uq_user_default_address`:
`('user_id', 'is_default')`. -/
def addressUqKey (a : AddressRow) : String × Bool := (a.user_id, a.is_default)

/-- The constraint's `postgresql_where='is_default = true'` predicate. -/
def addressUqScope (a : AddressRow) : Bool := a.is_default

/-- The `uq_user_default_address` constraint on a table state: among rows
matching the `where` predicate, the column tuple is unique. -/
def uq_user_default_address (rows : List AddressRow) : Prop :=
  rows.Pairwise (fun a b =>
    addressUqScope a = true → addressUqScope b = true →
      addressUqKey a ≠ addressUqKey b)

instance (rows : List AddressRow) : Decidable (uq_user_default_address rows) := by
  unfold uq_user_default_address
  infer_instance

/-- Number of default addresses a user has in a table state. -/
def defaultCount (rows : List AddressRow) (uid : String) : Nat :=
  rows.countP (fun a => a.user_id == uid && a.is_default)

/-- Constraint `unique=True` on `users.email`: the declared data-layer uniqueness is on
the raw email string. -/
def usersEmailUnique (rows : List UserRow) : Prop :=
  rows.Pairwise (fun a b => a.email ≠ b.email)

instance (rows : List UserRow) : Decidable (usersEmailUnique rows) := by
  unfold usersEmailUnique
  infer_instance

/-- The index declarations of the `users` table (`__table_args__`), with the
`unique` flag each carries: `Index('ix_users_email_lower', func.lower(email))`
and `Index('ix_users_active', ...)` are plain (non-unique) indexes. -/
def usersIndexes : List (String × Bool) :=
  [("ix_users_email_lower", false), ("ix_users_active", false)]

/-- The database state relevant to deleting a user. -/
structure DB where
  users : List UserRow
  addresses : List AddressRow
  orders : List OrderRow
  order_items : List OrderItemRow
deriving DecidableEq, Repr

/-- Does any order row still reference the user? (`orders.user_id` carries
`ForeignKey('users.id', ondelete='RESTRICT')`: the row delete is refused
while such a row exists.) -/
def ordersReference (orders : List OrderRow) (uid : String) : Bool :=
  orders.any (fun o => o.user_id == uid)

/-- ORM deletion of a user.  `User.orders` and `User.addresses` are declared
with `cascade='all, delete-orphan'`, so the ORM deletes the dependent
addresses and orders (and, through the `Order.items` cascade, their items)
before deleting the user row; the `RESTRICT` foreign key is then checked
against the remaining order rows.  Returns `none` when the user does not
exist or the restrict check refuses the delete. -/
def orm_delete_user (db : DB) (uid : String) : Option DB :=
  match db.users.find? (fun u => u.id == uid) with
  | none => none
  | some _ =>
      let remainingOrders := db.orders.filter (fun o => !(o.user_id == uid))
      let deadOrderIds := (db.orders.filter (fun o => o.user_id == uid)).map
        (fun o => o.id)
      if ordersReference remainingOrders uid then none
      else
        some
          { users := db.users.filter (fun u => !(u.id == uid)),
            addresses := db.addresses.filter (fun a => !(a.user_id == uid)),
            orders := remainingOrders,
            order_items := db.order_items.filter
              (fun i => !deadOrderIds.contains i.order_id) }

def demoOrder : OrderRow := ⟨"o1", "u1", none, "pending", 0, 0, 0, 0⟩

/-- Three non-default addresses of one user: allowed by the conditional
constraint, though the `(user_id, is_default)` pairs collide globally. -/
def manyNonDefault : List AddressRow :=
  [⟨"a1", "u1", "home", "s", "c", "st", "p", "FR", false⟩,
    ⟨"a2", "u1", "work", "s", "c", "st", "p", "FR", false⟩,
    ⟨"a3", "u1", "other", "s", "c", "st", "p", "FR", false⟩]

def oneDefault : List AddressRow :=
  [⟨"a1", "u1", "home", "s", "c", "st", "p", "FR", true⟩,
    ⟨"a2", "u1", "work", "s", "c", "st", "p", "FR", false⟩]

def demoDB : DB :=
  { users := [⟨"u1", "a@example.com", "n", "h", true, none⟩],
    addresses := [⟨"a1", "u1", "home", "s", "c", "st", "p", "FR", true⟩],
    orders := [⟨"o1", "u1", some "a1", "pending", 0, 0, 0, 0⟩,
      ⟨"o2", "u1", none, "shipped", 5, 1, 1, 7⟩],
    order_items := [⟨"i1", "o1", "p1", 2, 10, 0⟩] }

def caseTwinA : UserRow := ⟨"1", "a@example.com", "n", "h", true, none⟩

def caseTwinB : UserRow := ⟨"2", "A@Example.com", "n", "h", true, none⟩

end SqlalchemyModel

namespace FastapiEndpoint

/-- Every field in the list appears, quoted, inside the rendered set. -/
theorem mem_joinFields {f : String} : ∀ {l : List String}, f ∈ l →
    ∃ pre post, joinFields l = pre ++ (squote ++ f ++ squote) ++ post := by
  intro l hf
  induction l with
  | nil => cases hf
  | cons a rest ih =>
    rcases List.mem_cons.mp hf with rfl | hf2
    · cases rest with
      | nil => exact ⟨"", "", by simp [joinFields]⟩
      | cons b bs =>
        exact ⟨"", ", " ++ joinFields (b :: bs), by
          simp [joinFields, String.append_assoc]⟩
    · obtain ⟨pre, post, hpp⟩ := ih hf2
      cases rest with
      | nil => cases hf2
      | cons b bs =>
        refine ⟨squote ++ a ++ squote ++ ", " ++ pre, post, ?_⟩
        simp [joinFields, hpp, String.append_assoc]

/-- Membership in `invalid_fields`: exactly the request keys outside the
allow-list. -/
theorem mem_invalid_fields {updates : List (String × String)} {f : String} :
    f ∈ invalid_fields updates ↔
      f ∈ updates.map Prod.fst ∧ f ∉ allowed_fields := by
  simp [invalid_fields, List.mem_dedup, List.mem_filter]

/-- C1: a create-user request whose email (case-insensitively) already
belongs to a stored user fails with the 409 `EMAIL_EXISTS` error and the
repository's `create` operation is never invoked. -/
theorem create_user_duplicate_email
    (hash_password : String → String) (tbl : UserTable) (user_data : UserCreate)
    (newId : String) (now : Nat)
    (h : ∃ u ∈ tbl, lowerStr u.email = lowerStr user_data.email) :
    (create_user hash_password tbl user_data newId now).1 =
      .error ⟨409, ⟨"EMAIL_EXISTS", "A user with this email already exists",
        some "email"⟩⟩ ∧
    ∀ v, RepoOp.create v ∉ (create_user hash_password tbl user_data newId now).2 := by
  obtain ⟨u, hu, he⟩ := h
  have hsome : (get_by_email tbl user_data.email).isSome := by
    rw [get_by_email, List.find?_isSome]
    exact ⟨u, hu, by simp [he]⟩
  obtain ⟨w, hw⟩ := Option.isSome_iff_exists.mp hsome
  constructor
  · simp [create_user, hw]
  · intro v
    simp [create_user, hw]

theorem create_user_duplicate_email_witness :
    (create_user (fun s => s) [demoStored] ⟨"a@example.com", "x", "password1"⟩
        "id2" 5).1 =
      .error ⟨409, ⟨"EMAIL_EXISTS", "A user with this email already exists",
        some "email"⟩⟩ ∧
    ∀ v, RepoOp.create v ∉
      (create_user (fun s => s) [demoStored] ⟨"a@example.com", "x", "password1"⟩
        "id2" 5).2 :=
  create_user_duplicate_email (fun s => s) [demoStored] _ "id2" 5
    ⟨demoStored, by decide, by decide⟩

end FastapiEndpoint

namespace FastapiEndpoint

/-- C2: a partial update on an existing user whose request contains a field
outside the allow-list `\x7b'name', 'email'\x7d` fails whole with the 400
`INVALID_FIELDS` error whose message names every rejected field; the
repository's `update` operation is never invoked. -/
theorem update_user_disallowed_fields
    (tbl : UserTable) (user_id : String) (updates : List (String × String))
    (u : StoredUser) (hu : get_by_id tbl user_id = some u)
    (k : String) (hk : k ∈ updates.map Prod.fst) (hbad : k ∉ allowed_fields) :
    allowed_fields = ["name", "email"] ∧
    (update_user tbl user_id updates).1 = .error (invalid_fields_error updates) ∧
    (invalid_fields_error updates).status_code = 400 ∧
    (invalid_fields_error updates).detail.code = "INVALID_FIELDS" ∧
    (∀ f, f ∈ invalid_fields updates ↔
      f ∈ updates.map Prod.fst ∧ f ∉ allowed_fields) ∧
    (∀ f ∈ invalid_fields updates, ∃ pre post,
      (invalid_fields_error updates).detail.message =
        pre ++ (squote ++ f ++ squote) ++ post) ∧
    (∀ fs, RepoOp.update user_id fs ∉ (update_user tbl user_id updates).2) := by
  have hk2 : k ∈ invalid_fields updates := mem_invalid_fields.mpr ⟨hk, hbad⟩
  have hne : invalid_fields updates ≠ [] := List.ne_nil_of_mem hk2
  refine ⟨rfl, by simp [update_user, hu, hne], rfl, rfl,
    fun f => mem_invalid_fields, ?_, fun fs => by simp [update_user, hu, hne]⟩
  intro f hf
  obtain ⟨pre, post, hpp⟩ := mem_joinFields hf
  refine ⟨"Cannot update fields: " ++ "\x7b" ++ pre, post ++ "\x7d", ?_⟩
  simp only [invalid_fields_error, fieldSetRepr, hpp, String.append_assoc]

theorem update_user_disallowed_fields_witness :
    allowed_fields = ["name", "email"] ∧
    (update_user [demoStored] "1" [("password", "x")]).1 =
      .error (invalid_fields_error [("password", "x")]) ∧
    (invalid_fields_error [("password", "x")]).status_code = 400 ∧
    (invalid_fields_error [("password", "x")]).detail.code = "INVALID_FIELDS" ∧
    (∀ f, f ∈ invalid_fields [("password", "x")] ↔
      f ∈ ([("password", "x")] : List (String × String)).map Prod.fst ∧
        f ∉ allowed_fields) ∧
    (∀ f ∈ invalid_fields [("password", "x")], ∃ pre post,
      (invalid_fields_error [("password", "x")]).detail.message =
        pre ++ (squote ++ f ++ squote) ++ post) ∧
    (∀ fs, RepoOp.update "1" fs ∉
      (update_user [demoStored] "1" [("password", "x")]).2) :=
  update_user_disallowed_fields [demoStored] "1" [("password", "x")]
    demoStored (by decide) "password" (by decide) (by decide)

/-- C8: `get`, `update` and `delete` against an identifier absent from the
repository each fail with the 404 `USER_NOT_FOUND` error whose message names
the requested id; in particular `delete` on a missing id is an error, never
a success. -/
theorem not_found_policy (tbl : UserTable) (uid : String)
    (h : get_by_id tbl uid = none) :
    (get_user tbl uid).1 = .error (not_found_error uid) ∧
    (∀ updates, (update_user tbl uid updates).1 = .error (not_found_error uid)) ∧
    (delete_user tbl uid).1 = .error (not_found_error uid) ∧
    (∀ tbl2, (delete_user tbl uid).1 ≠ .ok tbl2) ∧
    not_found_error uid =
      ⟨404, ⟨"USER_NOT_FOUND", "User with ID " ++ uid ++ " not found", none⟩⟩ :=
  ⟨by simp [get_user, h], fun updates => by simp [update_user, h],
    by simp [delete_user, h], fun tbl2 => by simp [delete_user, h], rfl⟩

theorem not_found_policy_witness :
    (get_user [demoStored] "missing").1 = .error (not_found_error "missing") ∧
    (∀ updates, (update_user [demoStored] "missing" updates).1 =
      .error (not_found_error "missing")) ∧
    (delete_user [demoStored] "missing").1 = .error (not_found_error "missing") ∧
    (∀ tbl2, (delete_user [demoStored] "missing").1 ≠ .ok tbl2) ∧
    not_found_error "missing" =
      ⟨404, ⟨"USER_NOT_FOUND", "User with ID " ++ "missing" ++ " not found",
        none⟩⟩ :=
  not_found_policy [demoStored] "missing" (by decide)

/-- C10: in `update_user` the existence check precedes the allow-list check:
on a nonexistent id the result is the 404 `USER_NOT_FOUND` error whatever the
request body contains, so the error is never `INVALID_FIELDS`. -/
theorem update_user_checks_existence_first
    (tbl : UserTable) (user_id : String) (updates : List (String × String))
    (h : get_by_id tbl user_id = none) :
    (update_user tbl user_id updates).1 = .error (not_found_error user_id) ∧
    (not_found_error user_id).status_code = 404 ∧
    (not_found_error user_id).detail.code = "USER_NOT_FOUND" ∧
    ∀ e, (update_user tbl user_id updates).1 = .error e →
      e.detail.code ≠ "INVALID_FIELDS" := by
  have h1 : (update_user tbl user_id updates).1 =
      .error (not_found_error user_id) := by simp [update_user, h]
  refine ⟨h1, rfl, rfl, ?_⟩
  intro e he
  rw [h1] at he
  injection he with he2
  rw [← he2]
  simp [not_found_error]

theorem update_user_checks_existence_first_witness :
    (update_user [demoStored] "missing" [("password", "x")]).1 =
      .error (not_found_error "missing") ∧
    (not_found_error "missing").status_code = 404 ∧
    (not_found_error "missing").detail.code = "USER_NOT_FOUND" ∧
    (∀ e, (update_user [demoStored] "missing" [("password", "x")]).1 =
      .error e → e.detail.code ≠ "INVALID_FIELDS") :=
  update_user_checks_existence_first [demoStored] "missing" [("password", "x")]
    (by decide)

end FastapiEndpoint

namespace FastapiEndpoint

/-- C9: the create-user response is serialized through `UserResponse`, which
carries only `id`, `email`, `name` and `created_at`; the response is
identical for two requests differing only in their password, so nothing
derived from the password (in particular the credential hash) reaches the
output. -/
theorem create_user_response_excludes_hash
    (hash_password : String → String) (tbl : UserTable)
    (d1 d2 : UserCreate) (newId : String) (now : Nat)
    (he : d1.email = d2.email) (hn : d1.name = d2.name) :
    create_user_response hash_password tbl d1 newId now =
      create_user_response hash_password tbl d2 newId now ∧
    (∀ u : StoredUser, UserResponse.of_user u =
      ⟨u.id, u.email, u.name, u.created_at⟩) ∧
    (∀ tbl2 u, (create_user hash_password tbl d1 newId now).1 = .ok (tbl2, u) →
      create_user_response hash_password tbl d1 newId now =
        .ok ⟨u.id, u.email, u.name, u.created_at⟩) := by
  refine ⟨?_, fun u => rfl, ?_⟩
  · cases hget : get_by_email tbl d1.email with
    | none =>
        simp [create_user_response, create_user, hget, he ▸ hget, he, hn,
          Except.map, UserResponse.of_user]
    | some w =>
        simp [create_user_response, create_user, hget, he ▸ hget]
  · intro tbl2 u hok
    simp [create_user_response, hok, UserResponse.of_user, Except.map]

theorem create_user_response_excludes_hash_witness :
    create_user_response (fun s => s ++ "#") []
        ⟨"b@example.com", "n", "password1"⟩ "id9" 7 =
      create_user_response (fun s => s ++ "#") []
        ⟨"b@example.com", "n", "password2"⟩ "id9" 7 ∧
    (∀ u : StoredUser, UserResponse.of_user u =
      ⟨u.id, u.email, u.name, u.created_at⟩) ∧
    (∀ tbl2 u, (create_user (fun s => s ++ "#") []
        ⟨"b@example.com", "n", "password1"⟩ "id9" 7).1 = .ok (tbl2, u) →
      create_user_response (fun s => s ++ "#") []
          ⟨"b@example.com", "n", "password1"⟩ "id9" 7 =
        .ok ⟨u.id, u.email, u.name, u.created_at⟩) :=
  create_user_response_excludes_hash (fun s => s ++ "#") []
    ⟨"b@example.com", "n", "password1"⟩ ⟨"b@example.com", "n", "password2"⟩
    "id9" 7 rfl rfl

/-- C7: pagination is 1-based (page 1 is the first `per_page` filtered rows),
`total_count` is the size of the full filtered set, `total_pages` is the
ceiling of `total_count / per_page` (characterized by its Galois property),
and with 25 rows and `per_page = 10`, page 3 has 5 items and
`total_pages = 3`. -/
theorem list_users_pagination (tbl : UserTable) (page per_page : Nat)
    (is_active : Option Bool)
    (hp : 1 ≤ page) (hpp : 1 ≤ per_page) (hpple : per_page ≤ 100) :
    (list_users tbl page per_page is_active).meta.total_count =
      (tbl.filter (activeFilter is_active)).length ∧
    (list_users tbl 1 per_page is_active).data =
      ((tbl.filter (activeFilter is_active)).take per_page).map
        UserResponse.of_user ∧
    (∀ k, (list_users tbl page per_page is_active).meta.total_pages ≤ k ↔
      (list_users tbl page per_page is_active).meta.total_count ≤
        k * per_page) ∧
    (list_users demoUsers25 3 10 none).data.length = 5 ∧
    (list_users demoUsers25 3 10 none).meta.total_pages = 3 ∧
    (list_users demoUsers25 3 10 none).meta.total_count = 25 := by
  refine ⟨rfl, by simp [list_users, list_paginated], ?_, by decide, by decide,
    by decide⟩
  intro k
  show ((tbl.filter (activeFilter is_active)).length + per_page - 1) /
      per_page ≤ k ↔ (tbl.filter (activeFilter is_active)).length ≤ k * per_page
  generalize (tbl.filter (activeFilter is_active)).length = n
  rw [Nat.div_le_iff_le_mul_add_pred hpp]
  rw [Nat.mul_comm]
  generalize k * per_page = m
  omega

theorem list_users_pagination_witness :
    (list_users demoUsers25 3 10 none).meta.total_count =
      (demoUsers25.filter (activeFilter none)).length ∧
    (list_users demoUsers25 1 10 none).data =
      ((demoUsers25.filter (activeFilter none)).take 10).map
        UserResponse.of_user ∧
    (∀ k, (list_users demoUsers25 3 10 none).meta.total_pages ≤ k ↔
      (list_users demoUsers25 3 10 none).meta.total_count ≤ k * 10) ∧
    (list_users demoUsers25 3 10 none).data.length = 5 ∧
    (list_users demoUsers25 3 10 none).meta.total_pages = 3 ∧
    (list_users demoUsers25 3 10 none).meta.total_count = 25 :=
  list_users_pagination demoUsers25 3 10 none (by decide) (by decide)
    (by decide)

end FastapiEndpoint

namespace SqlalchemyModel

/-- Rows passing the orders-table check constraints have a non-negative
total and a status among the six enum values. -/
theorem orderChecksOk_spec (r : OrderRow) (h : orderChecksOk r = true) :
    0 ≤ r.total ∧ r.status ∈ orderStatusValues := by
  rw [orderChecksOk, Bool.and_eq_true] at h
  refine ⟨by simpa using h.2, ?_⟩
  have h1 := h.1
  rw [List.contains] at h1
  exact List.elem_iff.mp h1

/-- C3: every mutation the orders table admits preserves `total ≥ 0` and
`status` among exactly the six enum values, because the table's check
constraints (`ck_order_total_positive`, `ck_order_valid_status` in
`__table_args__`) guard every inserted or updated row at the data layer. -/
theorem order_invariants_preserved (rs rs2 : List OrderRow)
    (hinv : ∀ r ∈ rs, 0 ≤ r.total ∧ r.status ∈ orderStatusValues)
    (hmut : OrdersMutation rs rs2) :
    (∀ r ∈ rs2, 0 ≤ r.total ∧ r.status ∈ orderStatusValues) ∧
    orderStatusValues =
      ["pending", "confirmed", "processing", "shipped", "delivered",
        "cancelled"] := by
  refine ⟨?_, rfl⟩
  cases hmut with
  | insert r rs h =>
      intro x hx
      rcases List.mem_cons.mp hx with rfl | hx2
      · exact orderChecksOk_spec x h
      · exact hinv x hx2
  | update rs f h =>
      intro x hx
      obtain ⟨r, hr, rfl⟩ := List.mem_map.mp hx
      exact orderChecksOk_spec (f r) (h r hr)
  | delete rs p =>
      intro x hx
      exact hinv x (List.mem_of_mem_filter hx)

theorem order_invariants_preserved_witness :
    (∀ r ∈ [demoOrder], 0 ≤ r.total ∧ r.status ∈ orderStatusValues) ∧
    orderStatusValues =
      ["pending", "confirmed", "processing", "shipped", "delivered",
        "cancelled"] :=
  order_invariants_preserved [] [demoOrder] (by simp)
    (.insert demoOrder [] (by decide))

/-- C4: under the `uq_user_default_address` constraint (unique
`(user_id, is_default)` scoped by `postgresql_where='is_default = true'`),
each user has at most one default address, while a user may hold any number
of non-default addresses: a state with three of them satisfies the
constraint even though it repeats the `(user_id, is_default)` pair. -/
theorem single_default_address :
    (∀ (rows : List AddressRow), uq_user_default_address rows →
      ∀ uid, defaultCount rows uid ≤ 1) ∧
    uq_user_default_address manyNonDefault ∧
    2 ≤ (manyNonDefault.filter (fun a => a.user_id == "u1")).length ∧
    ¬ manyNonDefault.Pairwise (fun a b => addressUqKey a ≠ addressUqKey b) := by
  refine ⟨?_, by decide, by decide, by decide⟩
  intro rows h uid
  induction rows with
  | nil => simp [defaultCount]
  | cons a rest ih =>
      rw [uq_user_default_address, List.pairwise_cons] at h
      by_cases ha : (a.user_id == uid && a.is_default) = true
      · have hrest : rest.countP (fun b => b.user_id == uid && b.is_default) = 0 := by
          rw [List.countP_eq_zero]
          intro b hb hpb
          rw [Bool.and_eq_true, beq_iff_eq] at ha hpb
          exact h.1 b hb ha.2 hpb.2 (by
            rw [addressUqKey, addressUqKey, ha.1, ha.2, hpb.1, hpb.2])
        simp [defaultCount, List.countP_cons, ha, hrest]
      · have := ih h.2
        simp only [defaultCount, List.countP_cons, ha] at this ⊢
        simpa using this

theorem single_default_address_witness :
    defaultCount oneDefault "u1" ≤ 1 :=
  single_default_address.1 oneDefault (by decide) "u1"

end SqlalchemyModel

namespace SqlalchemyModel

/-- C5: deleting an existing user through the ORM succeeds — even when the
user has orders — and afterwards none of that user's addresses or orders
(nor the user row) remain: `cascade='all, delete-orphan'` removes the
dependents first, so the `RESTRICT` foreign key on `orders.user_id` sees no
remaining referencing row. -/
theorem user_delete_cascades (db : DB) (uid : String) (u : UserRow)
    (hu : u ∈ db.users) (hid : u.id = uid) :
    ∃ db2, orm_delete_user db uid = some db2 ∧
      (∀ a ∈ db2.addresses, a.user_id ≠ uid) ∧
      (∀ o ∈ db2.orders, o.user_id ≠ uid) ∧
      (∀ v ∈ db2.users, v.id ≠ uid) := by
  have hsome : (db.users.find? (fun v => v.id == uid)).isSome := by
    rw [List.find?_isSome]
    exact ⟨u, hu, by simp [hid]⟩
  obtain ⟨w, hw⟩ := Option.isSome_iff_exists.mp hsome
  have hrest : ordersReference
      (db.orders.filter (fun o => !(o.user_id == uid))) uid = false := by
    rw [ordersReference, List.any_eq_false]
    intro o ho
    have h2 := (List.mem_filter.mp ho).2
    simp at h2
    simp [h2]
  refine ⟨⟨db.users.filter (fun v => !(v.id == uid)),
    db.addresses.filter (fun a => !(a.user_id == uid)),
    db.orders.filter (fun o => !(o.user_id == uid)),
    db.order_items.filter
      (fun i => !((db.orders.filter (fun o => o.user_id == uid)).map
        (fun o => o.id)).contains i.order_id)⟩, ?_, ?_, ?_, ?_⟩
  · simp [orm_delete_user, hw, hrest]
  · intro a ha
    have h2 := (List.mem_filter.mp ha).2
    simpa using h2
  · intro o ho
    have h2 := (List.mem_filter.mp ho).2
    simpa using h2
  · intro v hv
    have h2 := (List.mem_filter.mp hv).2
    simpa using h2

theorem user_delete_cascades_witness :
    ∃ db2, orm_delete_user demoDB "u1" = some db2 ∧
      (∀ a ∈ db2.addresses, a.user_id ≠ "u1") ∧
      (∀ o ∈ db2.orders, o.user_id ≠ "u1") ∧
      (∀ v ∈ db2.users, v.id ≠ "u1") :=
  user_delete_cascades demoDB "u1" ⟨"u1", "a@example.com", "n", "h", true, none⟩
    (by decide) (by decide)

/-- C6 counterexample: the users table's data-layer email constraint is
`unique=True` on the raw string, and `ix_users_email_lower` is declared
without a unique flag, so a state holding two distinct users whose emails
differ only in letter case satisfies every declared constraint: case-variant
duplicates are not excluded at the data layer. -/
theorem email_case_unique_counterexample :
    usersEmailUnique [caseTwinA, caseTwinB] ∧
    caseTwinA ≠ caseTwinB ∧
    FastapiEndpoint.lowerStr caseTwinA.email =
      FastapiEndpoint.lowerStr caseTwinB.email ∧
    usersIndexes = [("ix_users_email_lower", false), ("ix_users_active", false)] := by
  refine ⟨by decide, by decide, by decide, rfl⟩

/-- C6 amended: the data layer makes emails unique case-sensitively (two
distinct stored users never share the raw email string), while the
case-insensitive round-trip holds at the repository level: `get_by_email`
with `"a@example.com"` finds the user stored as `"A@Example.com"`. -/
theorem email_unique_case_sensitive (rows : List UserRow)
    (h : usersEmailUnique rows) (a b : UserRow)
    (ha : a ∈ rows) (hb : b ∈ rows) (hab : a ≠ b) :
    a.email ≠ b.email ∧
    FastapiEndpoint.get_by_email
        [⟨"1", "A@Example.com", "n", "h", 0, true⟩] "a@example.com" =
      some ⟨"1", "A@Example.com", "n", "h", 0, true⟩ := by
  refine ⟨?_, by decide⟩
  have hsym : Symmetric (fun x y : UserRow => x.email ≠ y.email) :=
    fun x y hxy hyx => hxy hyx.symm
  exact List.Pairwise.forall hsym h ha hb hab

theorem email_unique_case_sensitive_witness :
    caseTwinA.email ≠ caseTwinB.email ∧
    FastapiEndpoint.get_by_email
        [⟨"1", "A@Example.com", "n", "h", 0, true⟩] "a@example.com" =
      some ⟨"1", "A@Example.com", "n", "h", 0, true⟩ :=
  email_unique_case_sensitive [caseTwinA, caseTwinB] (by decide)
    caseTwinA caseTwinB (by decide) (by decide) (by decide)

end SqlalchemyModel
